import Mathlib

/-!
Shallow embedding of the pybooklet status ledger (src/database.py) and the
TBR ordered-list manager. SQLite tables are lists of records; `DELETE ...
WHERE book_id = ?` is `List.filter`, `INSERT` is append, `UPDATE` is
`List.map`, and `SELECT ... fetchone` is `List.find?`/`List.any`. Column
default timestamps (CURRENT_TIMESTAMP) are modelled by an explicit `now`
argument threaded into the operations that insert rows.
-/

/-- A row of the reading_tracker table: book_id, current_page, and the
start_date column (schema default = insertion time, hence always present). -/
structure TrackingRec where
  book_id : Nat
  current_page : Int
  start_date : String
deriving DecidableEq

/-- A row of the completed_books table. rating/review/start_date are
nullable; completion_date has a schema default but update_completed_book
can set it to NULL, so it is optional too. -/
structure CompletedRec where
  book_id : Nat
  rating : Option Int
  review : Option String
  start_date : Option String
  completion_date : Option String
deriving DecidableEq

/-- A row of the abandoned_books table; update_abandoned_book can set any
of the non-key columns to NULL. -/
structure AbandonedRec where
  book_id : Nat
  page_at_abandonment : Option Int
  reason : Option String
  start_date : Option String
  abandonment_date : Option String
deriving DecidableEq

/-- A row of the reading_sessions table (src/database.py add_reading_session):
pages_read and session_date are derived columns computed at insertion. -/
structure SessionRec where
  book_id : Nat
  start_time : String
  end_time : String
  duration_seconds : Int
  pages_read : Int
  start_page : Int
  end_page : Int
  session_date : String
deriving DecidableEq

/-- The relational store: the books catalog (only identities matter for the
claims) and the four auxiliary tables. -/
structure DB where
  books : List Nat
  reading_tracker : List TrackingRec
  completed_books : List CompletedRec
  abandoned_books : List AbandonedRec
  reading_sessions : List SessionRec
deriving DecidableEq

/-- Python truthiness of an optional string argument: `if not start_date:`
fires on None and on the empty string. -/
def pyFalsy : Option String → Bool
  | none => true
  | some s => s == ""

/-- `SELECT id FROM reading_tracker WHERE book_id = ?` returned a row. -/
def trackerHas (s : DB) (b : Nat) : Bool :=
  s.reading_tracker.any (fun r => r.book_id == b)

/-- `SELECT id FROM completed_books WHERE book_id = ?` returned a row. -/
def completedHas (s : DB) (b : Nat) : Bool :=
  s.completed_books.any (fun c => c.book_id == b)

/-- `SELECT id FROM abandoned_books WHERE book_id = ?` returned a row. -/
def abandonedHas (s : DB) (b : Nat) : Bool :=
  s.abandoned_books.any (fun a => a.book_id == b)

/-- src/database.py get_book_status (lines 208-241): unknown when the id is
not in books, else first of tracking / completed / abandoned to contain the
book, else library. -/
def get_book_status (s : DB) (book_id : Nat) : String :=
  if !(s.books.contains book_id) then "unknown"
  else if trackerHas s book_id then "tracking"
  else if completedHas s book_id then "completed"
  else if abandonedHas s book_id then "abandoned"
  else "library"

/-- src/database.py add_to_tracker (lines 269-296). The DELETEs from
completed_books/abandoned_books are issued before the already-tracking
check, but on the already-tracking branch the connection is closed without
commit, which rolls them back; so that branch leaves the store unchanged.
On the success branch the deletes and the INSERT commit together. The new
row's start_date comes from the column default, modelled by `now`. -/
def add_to_tracker (s : DB) (book_id : Nat) (current_page : Int)
    (now : String) : Bool × DB :=
  if s.reading_tracker.any (fun r => r.book_id == book_id) then
    (false, s)
  else
    (true, { s with
      completed_books := s.completed_books.filter (fun c => c.book_id != book_id),
      abandoned_books := s.abandoned_books.filter (fun a => a.book_id != book_id),
      reading_tracker := s.reading_tracker ++
        [{ book_id := book_id, current_page := current_page, start_date := now }] })

/-- src/database.py update_tracker_progress (lines 299-314): UPDATE the
current_page of the book's tracker rows; success iff a row was hit. -/
def update_tracker_progress (s : DB) (book_id : Nat) (current_page : Int) :
    Bool × DB :=
  (s.reading_tracker.any (fun r => r.book_id == book_id),
   { s with reading_tracker := s.reading_tracker.map (fun r =>
       if r.book_id == book_id then { r with current_page := current_page } else r) })

/-- src/database.py remove_from_tracker (lines 317-328): DELETE the book's
tracker rows; success iff at least one row was deleted. -/
def remove_from_tracker (s : DB) (book_id : Nat) : Bool × DB :=
  (s.reading_tracker.any (fun r => r.book_id == book_id),
   { s with reading_tracker := s.reading_tracker.filter (fun r => r.book_id != book_id) })

/-- src/database.py complete_book (lines 413-446): resolve start_date from
the tracker row when the argument is falsy, delete the book's tracker and
abandoned rows, insert a completed row (completion_date from the column
default = now). Always returns True. It does not delete prior completed
rows. -/
def complete_book (s : DB) (book_id : Nat) (rating : Option Int)
    (review : Option String) (start_date : Option String) (now : String) :
    Bool × DB :=
  let sd :=
    if pyFalsy start_date then
      match s.reading_tracker.find? (fun r => r.book_id == book_id) with
      | some r => some r.start_date
      | none => start_date
    else start_date
  (true, { s with
    reading_tracker := s.reading_tracker.filter (fun r => r.book_id != book_id),
    abandoned_books := s.abandoned_books.filter (fun a => a.book_id != book_id),
    completed_books := s.completed_books ++
      [{ book_id := book_id, rating := rating, review := review,
         start_date := sd, completion_date := some now }] })

/-- src/database.py update_completed_book (lines 449-484): unconditionally
overwrites all four non-key columns of the book's completed rows with the
arguments (None becomes NULL); success iff a row was hit. -/
def update_completed_book (s : DB) (book_id : Nat) (rating : Option Int)
    (review : Option String) (start_date : Option String)
    (completion_date : Option String) : Bool × DB :=
  (s.completed_books.any (fun c => c.book_id == book_id),
   { s with completed_books := s.completed_books.map (fun c =>
       if c.book_id == book_id then
         { c with rating := rating, review := review,
                  start_date := start_date, completion_date := completion_date }
       else c) })

/-- src/database.py remove_from_completed (lines 487-498). -/
def remove_from_completed (s : DB) (book_id : Nat) : Bool × DB :=
  (s.completed_books.any (fun c => c.book_id == book_id),
   { s with completed_books := s.completed_books.filter (fun c => c.book_id != book_id) })

/-- src/database.py abandon_book (lines 572-605): symmetric to
complete_book; deletes tracker and completed rows, inserts an abandoned row
(abandonment_date from the column default = now). Always returns True. -/
def abandon_book (s : DB) (book_id : Nat) (page_at_abandonment : Int)
    (reason : Option String) (start_date : Option String) (now : String) :
    Bool × DB :=
  let sd :=
    if pyFalsy start_date then
      match s.reading_tracker.find? (fun r => r.book_id == book_id) with
      | some r => some r.start_date
      | none => start_date
    else start_date
  (true, { s with
    reading_tracker := s.reading_tracker.filter (fun r => r.book_id != book_id),
    completed_books := s.completed_books.filter (fun c => c.book_id != book_id),
    abandoned_books := s.abandoned_books ++
      [{ book_id := book_id, page_at_abandonment := some page_at_abandonment,
         reason := reason, start_date := sd, abandonment_date := some now }] })

/-- src/database.py update_abandoned_book (lines 608-643): unconditionally
overwrites all four non-key columns with the arguments. -/
def update_abandoned_book (s : DB) (book_id : Nat)
    (page_at_abandonment : Option Int) (reason : Option String)
    (start_date : Option String) (abandonment_date : Option String) :
    Bool × DB :=
  (s.abandoned_books.any (fun a => a.book_id == book_id),
   { s with abandoned_books := s.abandoned_books.map (fun a =>
       if a.book_id == book_id then
         { a with page_at_abandonment := page_at_abandonment, reason := reason,
                  start_date := start_date, abandonment_date := abandonment_date }
       else a) })

/-- src/database.py remove_from_abandoned (lines 646-657). -/
def remove_from_abandoned (s : DB) (book_id : Nat) : Bool × DB :=
  (s.abandoned_books.any (fun a => a.book_id == book_id),
   { s with abandoned_books := s.abandoned_books.filter (fun a => a.book_id != book_id) })

/-- Date component of an ISO-8601 date-time string: models
`datetime.fromisoformat(start_time).date().isoformat()` from
src/database.py line 680, which for a well-formed "YYYY-MM-DD..." input is
its first ten characters. -/
def dateComponent (start_time : String) : String :=
  start_time.take 10

/-- src/database.py add_reading_session (lines 664-693): append one row with
derived pages_read = end_page - start_page (no validation) and derived
session_date = date component of start_time. The returned SQLite rowid is
not modelled. -/
def add_reading_session (s : DB) (book_id : Nat) (start_time : String)
    (end_time : String) (duration_seconds : Int) (start_page : Int)
    (end_page : Int) : DB :=
  { s with reading_sessions := s.reading_sessions ++
      [{ book_id := book_id, start_time := start_time, end_time := end_time,
         duration_seconds := duration_seconds,
         pages_read := end_page - start_page,
         start_page := start_page, end_page := end_page,
         session_date := dateComponent start_time }] }

/-- Number of the three status tables that contain the book (each table
counted once, regardless of duplicate rows). -/
def statusCount (s : DB) (b : Nat) : Nat :=
  (if trackerHas s b then 1 else 0) +
  (if completedHas s b then 1 else 0) +
  (if abandonedHas s b then 1 else 0)

/-- One call to a status-ledger mutator, with its arguments. -/
inductive LedgerOp where
  | track (book_id : Nat) (current_page : Int) (now : String)
  | complete (book_id : Nat) (rating : Option Int) (review : Option String)
      (start_date : Option String) (now : String)
  | abandon (book_id : Nat) (page_at_abandonment : Int) (reason : Option String)
      (start_date : Option String) (now : String)
  | progress (book_id : Nat) (current_page : Int)
  | untrack (book_id : Nat)
  | uncomplete (book_id : Nat)
  | unabandon (book_id : Nat)
deriving DecidableEq

/-- Run one ledger call against the store, keeping the resulting state. -/
def applyOp (s : DB) : LedgerOp → DB
  | .track b cp now => (add_to_tracker s b cp now).2
  | .complete b r v sd now => (complete_book s b r v sd now).2
  | .abandon b p rsn sd now => (abandon_book s b p rsn sd now).2
  | .progress b cp => (update_tracker_progress s b cp).2
  | .untrack b => (remove_from_tracker s b).2
  | .uncomplete b => (remove_from_completed s b).2
  | .unabandon b => (remove_from_abandoned s b).2

/-- Run a sequence of ledger calls. -/
def applyOps (s : DB) (ops : List LedgerOp) : DB :=
  ops.foldl applyOp s

/-- Modelled from the spec: a TBR membership row — the repository's TBR
data-access functions are called from src/main.py but their bodies are not
under src/. A membership joins a book to at most one list, with an integer
position defining order within the list (spec section 3). -/
structure TbrMem where
  book_id : Nat
  list_id : Nat
  position : Int
deriving DecidableEq

/-- Modelled from the spec: the ordered-list manager's state — the TBR list
identities and the membership table. -/
structure TbrState where
  lists : List Nat
  memberships : List TbrMem
deriving DecidableEq

/-- Modelled from the spec: `book's current list(book_id) -> List | none`
(get_book_tbr_list, called at src/main.py line 1076 but absent from src/):
the list of the book's membership, if any. -/
def get_book_tbr_list (st : TbrState) (b : Nat) : Option Nat :=
  (st.memberships.find? (fun m => m.book_id == b)).map (fun m => m.list_id)

/-- Comparison used to order a list's memberships by ascending position. -/
def posLe (m1 m2 : TbrMem) : Bool :=
  m1.position ≤ m2.position

/-- Modelled from the spec: `list_books(list_id)` (get_books_in_tbr_list,
called at src/main.py line 1001 but absent from src/): the list's
memberships joined by ascending position, projected to book identities. -/
def get_books_in_tbr_list (st : TbrState) (l : Nat) : List Nat :=
  ((st.memberships.filter (fun m => m.list_id == l)).mergeSort posLe).map
    (fun m => m.book_id)

/-- Modelled from the spec: `add_book(book_id, list_id)` (add_book_to_tbr_list,
called at src/main.py line 1029 but absent from src/): fails when the list
does not exist; otherwise deletes any membership of the book in a different
list, then appends a membership at the end of the target list's ordering
(position = current max + 1; spec allows 0 or 1 for an empty list, we use 1). -/
def add_book_to_tbr_list (st : TbrState) (b : Nat) (l : Nat) : Bool × TbrState :=
  if st.lists.contains l then
    let pruned := st.memberships.filter (fun m => !(m.book_id == b && m.list_id != l))
    let maxpos := (pruned.filter (fun m => m.list_id == l)).foldl
      (fun acc m => max acc m.position) 0
    (true, { st with memberships := pruned ++
        [{ book_id := b, list_id := l, position := maxpos + 1 }] })
  else (false, st)

/-- Modelled from the spec: `remove_book(book_id, list_id)`
(remove_book_from_tbr_list, called at src/main.py line 1014 but absent from
src/): deletes the membership, fails if the book was not on that list; no
renumbering of the remaining positions. -/
def remove_book_from_tbr_list (st : TbrState) (b : Nat) (l : Nat) : Bool × TbrState :=
  (st.memberships.any (fun m => m.book_id == b && m.list_id == l),
   { st with memberships :=
       st.memberships.filter (fun m => !(m.book_id == b && m.list_id == l)) })

/-- The membership of list `l` with the greatest position strictly below `p`
— the row immediately preceding position `p` in the list's order. -/
def bestBelow (l : Nat) (p : Int) : List TbrMem → Option TbrMem
  | [] => none
  | m :: ms =>
    let rest := bestBelow l p ms
    if m.list_id == l && m.position < p then
      match rest with
      | none => some m
      | some a => if a.position < m.position then some m else some a
    else rest

/-- The membership of list `l` with the least position strictly above `p`
— the row immediately following position `p` in the list's order. -/
def bestAbove (l : Nat) (p : Int) : List TbrMem → Option TbrMem
  | [] => none
  | m :: ms =>
    let rest := bestAbove l p ms
    if m.list_id == l && p < m.position then
      match rest with
      | none => some m
      | some a => if m.position < a.position then some m else some a
    else rest

/-- Row-wise position reassignment within list `l`: book `b1` gets position
`p1`, book `b2` gets position `p2`, every other row is untouched. -/
def swapFn (l : Nat) (b1 : Nat) (p1 : Int) (b2 : Nat) (p2 : Int)
    (x : TbrMem) : TbrMem :=
  if x.list_id == l && x.book_id == b1 then { x with position := p1 }
  else if x.list_id == l && x.book_id == b2 then { x with position := p2 }
  else x

/-- Swap the position values of the rows of books `b1` and `b2` within list
`l`, leaving every other row untouched. -/
def swapPositions (ms : List TbrMem) (l : Nat) (b1 : Nat) (p1 : Int)
    (b2 : Nat) (p2 : Int) : List TbrMem :=
  ms.map (swapFn l b1 p1 b2 p2)

/-- Modelled from the spec: `move_up(book_id, list_id)` (move_book_up, called
at src/main.py line 1053 but absent from src/): locate the membership
immediately preceding the book's position within the list and swap the two
position values; fail if the book has no membership there or is already
first. -/
def move_book_up (st : TbrState) (b : Nat) (l : Nat) : Bool × TbrState :=
  match st.memberships.find? (fun m => m.book_id == b && m.list_id == l) with
  | none => (false, st)
  | some m =>
    match bestBelow l m.position st.memberships with
    | none => (false, st)
    | some n =>
      (true, { st with memberships :=
          swapPositions st.memberships l b n.position n.book_id m.position })

/-- Modelled from the spec: `move_down(book_id, list_id)` (move_book_down,
called at src/main.py line 1064 but absent from src/): symmetric to
move_book_up with the immediately following membership. -/
def move_book_down (st : TbrState) (b : Nat) (l : Nat) : Bool × TbrState :=
  match st.memberships.find? (fun m => m.book_id == b && m.list_id == l) with
  | none => (false, st)
  | some m =>
    match bestAbove l m.position st.memberships with
    | none => (false, st)
    | some n =>
      (true, { st with memberships :=
          swapPositions st.memberships l b n.position n.book_id m.position })

/-! ## Generic list lemmas used throughout -/

/-- Filtering out a key leaves no row with that key. -/
theorem any_beq_filter_bne {α : Type} (f : α → Nat) (b : Nat) (xs : List α) :
    (xs.filter (fun x => f x != b)).any (fun x => f x == b) = false := by
  rw [List.any_filter]
  simp

/-- Filtering out a different key does not change whether a key occurs. -/
theorem any_beq_filter_bne_ne {α : Type} (f : α → Nat) (b bq : Nat)
    (h : b ≠ bq) (xs : List α) :
    (xs.filter (fun x => f x != bq)).any (fun x => f x == b)
      = xs.any (fun x => f x == b) := by
  rw [List.any_filter]
  refine congrArg xs.any (funext fun a => ?_)
  by_cases hfa : f a = b
  · simp [hfa, bne, h]
  · simp [hfa]

/-- A key occurs in `xs ++ [x]` iff it occurs in `xs` or is the key of `x`. -/
theorem any_append_single {α : Type} (f : α → Bool) (xs : List α) (x : α) :
    (xs ++ [x]).any f = (xs.any f || f x) := by
  simp

/-- A row-wise update that preserves the searched predicate does not change
whether it occurs. -/
theorem any_map_of_pred {α : Type} (p : α → Bool) (f : α → α)
    (hf : ∀ x, p (f x) = p x) (xs : List α) :
    (xs.map f).any p = xs.any p := by
  rw [List.any_map]
  exact congrArg xs.any (funext hf)

/-- If every row of `xs` satisfies the keep-predicate, the filter is `xs`. -/
theorem filter_eq_self_of_none {α : Type} (f : α → Nat) (b : Nat)
    (xs : List α) (h : xs.any (fun x => f x == b) = false) :
    xs.filter (fun x => f x != b) = xs := by
  rw [List.filter_eq_self]
  intro a ha
  have := List.any_eq_false.mp h a ha
  simpa [bne] using this

/-! ## C2: the idempotency guard of add_to_tracker -/

/-- After any call to add_to_tracker for book b, the tracker contains b. -/
theorem trackerHas_after_add (s : DB) (b : Nat) (cp : Int) (now : String) :
    trackerHas (add_to_tracker s b cp now).2 b = true := by
  unfold add_to_tracker trackerHas
  by_cases h : s.reading_tracker.any (fun r => r.book_id == b) = true
  · simp [h]
  · simp only [Bool.not_eq_true] at h
    simp [h, any_append_single]

/-- add_to_tracker on an already-tracked book fails and changes nothing:
the early deletes are rolled back by the commit-less close. -/
theorem add_to_tracker_already (s : DB) (b : Nat) (cp : Int) (now : String)
    (h : trackerHas s b = true) :
    add_to_tracker s b cp now = (false, s) := by
  unfold trackerHas at h
  unfold add_to_tracker
  simp [h]

/-- C2: if a live Tracking record exists for a book, add_to_tracker returns
failure and leaves the store unchanged; in particular a second consecutive
add_to_tracker on the same book (from any store) fails with no state
change. -/
theorem start_tracking_guard (s s2 : DB) (b : Nat) (cp cp2 cp3 : Int)
    (now now2 now3 : String) (h : trackerHas s b = true) :
    add_to_tracker s b cp now = (false, s) ∧
    add_to_tracker (add_to_tracker s2 b cp2 now2).2 b cp3 now3
      = (false, (add_to_tracker s2 b cp2 now2).2) := by
  refine ⟨add_to_tracker_already s b cp now h, ?_⟩
  exact add_to_tracker_already _ b cp3 now3 (trackerHas_after_add s2 b cp2 now2)

/-- Witness for C2 on a concrete store already tracking book 5. -/
theorem start_tracking_guard_witness :
    add_to_tracker ⟨[5], [⟨5, 3, "t0"⟩], [], [], []⟩ 5 9 "t9"
      = (false, ⟨[5], [⟨5, 3, "t0"⟩], [], [], []⟩) ∧
    add_to_tracker (add_to_tracker ⟨[7], [], [], [], []⟩ 5 0 "a").2 5 1 "b"
      = (false, (add_to_tracker ⟨[7], [], [], [], []⟩ 5 0 "a").2) :=
  ⟨(start_tracking_guard ⟨[5], [⟨5, 3, "t0"⟩], [], [], []⟩ ⟨[7], [], [], [], []⟩
      5 9 0 1 "t9" "a" "b" (by decide)).1,
   (start_tracking_guard ⟨[5], [⟨5, 3, "t0"⟩], [], [], []⟩ ⟨[7], [], [], [], []⟩
      5 9 0 1 "t9" "a" "b" (by decide)).2⟩

/-! ## C3: characterization of get_book_status -/

/-- C3: get_book_status is "unknown" iff the id is not in the catalog;
for a catalog book it checks tracking, then completed, then abandoned, in
that priority order, and falls back to "library". -/
theorem get_book_status_spec (s : DB) (b : Nat) :
    (get_book_status s b = "unknown" ↔ ¬ b ∈ s.books) ∧
    (b ∈ s.books → trackerHas s b = true → get_book_status s b = "tracking") ∧
    (b ∈ s.books → trackerHas s b = false → completedHas s b = true →
      get_book_status s b = "completed") ∧
    (b ∈ s.books → trackerHas s b = false → completedHas s b = false →
      abandonedHas s b = true → get_book_status s b = "abandoned") ∧
    (b ∈ s.books → trackerHas s b = false → completedHas s b = false →
      abandonedHas s b = false → get_book_status s b = "library") := by
  unfold get_book_status
  by_cases hb : b ∈ s.books
  · simp only [List.elem_iff.mpr hb]
    refine ⟨?_, ?_, ?_, ?_, ?_⟩
    · constructor
      · intro h
        split_ifs at h <;> simp_all
      · intro h
        exact absurd hb h
    · intro _ ht
      simp [ht]
    · intro _ ht hc
      simp [ht, hc]
    · intro _ ht hc ha
      simp [ht, hc, ha]
    · intro _ ht hc ha
      simp [ht, hc, ha]
  · have hc : s.books.contains b = false := by
      rw [← Bool.not_eq_true, List.elem_iff]
      exact hb
    simp [hc, hb]

/-- Witness for C3 at concrete stores exercising the tracking branch and
the unknown branch. -/
theorem get_book_status_spec_witness :
    get_book_status ⟨[5], [⟨5, 0, "t"⟩], [], [], []⟩ 5 = "tracking" ∧
    (get_book_status ⟨[5], [], [], [], []⟩ 9 = "unknown" ↔
      ¬ 9 ∈ (⟨[5], [], [], [], []⟩ : DB).books) :=
  ⟨(get_book_status_spec ⟨[5], [⟨5, 0, "t"⟩], [], [], []⟩ 5).2.1
      (by decide) (by decide),
   (get_book_status_spec ⟨[5], [], [], [], []⟩ 9).1⟩

/-! ## C7: the three removal operations -/

/-- C7: each removal deletes the book's record from its own status table
only, returning false exactly when that table had no record for the book
(in which case the store is unchanged). -/
theorem return_to_library_spec (s : DB) (b : Nat) :
    ((remove_from_tracker s b).1 = trackerHas s b ∧
     (remove_from_tracker s b).2.reading_tracker
       = s.reading_tracker.filter (fun r => r.book_id != b) ∧
     (remove_from_tracker s b).2.completed_books = s.completed_books ∧
     (remove_from_tracker s b).2.abandoned_books = s.abandoned_books ∧
     (remove_from_tracker s b).2.books = s.books ∧
     (remove_from_tracker s b).2.reading_sessions = s.reading_sessions ∧
     (trackerHas s b = false → (remove_from_tracker s b).2 = s)) ∧
    ((remove_from_completed s b).1 = completedHas s b ∧
     (remove_from_completed s b).2.completed_books
       = s.completed_books.filter (fun c => c.book_id != b) ∧
     (remove_from_completed s b).2.reading_tracker = s.reading_tracker ∧
     (remove_from_completed s b).2.abandoned_books = s.abandoned_books ∧
     (remove_from_completed s b).2.books = s.books ∧
     (remove_from_completed s b).2.reading_sessions = s.reading_sessions ∧
     (completedHas s b = false → (remove_from_completed s b).2 = s)) ∧
    ((remove_from_abandoned s b).1 = abandonedHas s b ∧
     (remove_from_abandoned s b).2.abandoned_books
       = s.abandoned_books.filter (fun a => a.book_id != b) ∧
     (remove_from_abandoned s b).2.reading_tracker = s.reading_tracker ∧
     (remove_from_abandoned s b).2.completed_books = s.completed_books ∧
     (remove_from_abandoned s b).2.books = s.books ∧
     (remove_from_abandoned s b).2.reading_sessions = s.reading_sessions ∧
     (abandonedHas s b = false → (remove_from_abandoned s b).2 = s)) := by
  refine ⟨⟨rfl, rfl, rfl, rfl, rfl, rfl, fun h => ?_⟩,
          ⟨rfl, rfl, rfl, rfl, rfl, rfl, fun h => ?_⟩,
          ⟨rfl, rfl, rfl, rfl, rfl, rfl, fun h => ?_⟩⟩
  · show { s with reading_tracker := _ } = s
    have h2 : s.reading_tracker.any (fun r => r.book_id == b) = false := h
    rw [filter_eq_self_of_none (fun r : TrackingRec => r.book_id) b
      s.reading_tracker h2]
  · show { s with completed_books := _ } = s
    have h2 : s.completed_books.any (fun c => c.book_id == b) = false := h
    rw [filter_eq_self_of_none (fun c : CompletedRec => c.book_id) b
      s.completed_books h2]
  · show { s with abandoned_books := _ } = s
    have h2 : s.abandoned_books.any (fun a => a.book_id == b) = false := h
    rw [filter_eq_self_of_none (fun a : AbandonedRec => a.book_id) b
      s.abandoned_books h2]

/-- Witness for C7 at a concrete store: removing book 5 from the tracker
succeeds; removing it from completed fails and leaves the store intact. -/
theorem return_to_library_spec_witness :
    (remove_from_tracker ⟨[5], [⟨5, 3, "t"⟩], [], [], []⟩ 5).1
      = trackerHas ⟨[5], [⟨5, 3, "t"⟩], [], [], []⟩ 5 ∧
    (remove_from_completed ⟨[5], [⟨5, 3, "t"⟩], [], [], []⟩ 5).2
      = ⟨[5], [⟨5, 3, "t"⟩], [], [], []⟩ :=
  ⟨(return_to_library_spec ⟨[5], [⟨5, 3, "t"⟩], [], [], []⟩ 5).1.1,
   (return_to_library_spec ⟨[5], [⟨5, 3, "t"⟩], [], [], []⟩ 5).2.1.2.2.2.2.2.2
     (by decide)⟩

/-! ## C8: derived fields of a recorded reading session -/

/-- C8: add_reading_session appends one row whose pages_read is
end_page - start_page (unvalidated, so negative when misreported) and whose
session_date is the calendar-date component of the start timestamp; the
second conjunct exhibits a misreported session stored with pages_read
-10. -/
theorem add_reading_session_spec (s : DB) (b : Nat) (st et : String)
    (dur sp ep : Int) :
    (add_reading_session s b st et dur sp ep).reading_sessions
      = s.reading_sessions ++
        [⟨b, st, et, dur, ep - sp, sp, ep, dateComponent st⟩] ∧
    (add_reading_session s b "2024-01-02T03:04:05" et dur 50 40).reading_sessions
      = s.reading_sessions ++
        [⟨b, "2024-01-02T03:04:05", et, dur, -10, 50, 40, "2024-01-02"⟩] := by
  constructor
  · rfl
  · have h1 : (40 : Int) - 50 = -10 := by decide
    have h2 : dateComponent "2024-01-02T03:04:05" = "2024-01-02" := by decide
    simp only [add_reading_session, h1, h2]

/-! ## C9: field-level updates of completed and abandoned records -/

/-- An update that only rewrites non-key fields of matching rows keeps
every row's book_id. -/
theorem book_id_update_completed (b : Nat) (r : Option Int)
    (v sd cd : Option String) (c : CompletedRec) :
    (if c.book_id == b then
      ({ c with rating := r, review := v, start_date := sd,
                completion_date := cd } : CompletedRec)
     else c).book_id = c.book_id := by
  split <;> rfl

/-- Same for abandoned rows. -/
theorem book_id_update_abandoned (b : Nat) (p : Option Int)
    (rsn sd ad : Option String) (a : AbandonedRec) :
    (if a.book_id == b then
      ({ a with page_at_abandonment := p, reason := rsn, start_date := sd,
                abandonment_date := ad } : AbandonedRec)
     else a).book_id = a.book_id := by
  split <;> rfl

/-- C9: update_completed_book / update_abandoned_book return true exactly
when a record exists for the book, overwrite all four non-key fields of its
records with the supplied arguments (an omitted argument becomes null), and
never change which status table contains any book. -/
theorem update_status_fields_spec (s : DB) (b : Nat) (r : Option Int)
    (v sd cd : Option String) (p : Option Int) (rsn sd2 ad : Option String) :
    ((update_completed_book s b r v sd cd).1 = completedHas s b ∧
     (∀ c ∈ (update_completed_book s b r v sd cd).2.completed_books,
       c.book_id = b → c = ⟨b, r, v, sd, cd⟩) ∧
     (∀ b2, trackerHas (update_completed_book s b r v sd cd).2 b2
         = trackerHas s b2 ∧
       completedHas (update_completed_book s b r v sd cd).2 b2
         = completedHas s b2 ∧
       abandonedHas (update_completed_book s b r v sd cd).2 b2
         = abandonedHas s b2)) ∧
    ((update_abandoned_book s b p rsn sd2 ad).1 = abandonedHas s b ∧
     (∀ a ∈ (update_abandoned_book s b p rsn sd2 ad).2.abandoned_books,
       a.book_id = b → a = ⟨b, p, rsn, sd2, ad⟩) ∧
     (∀ b2, trackerHas (update_abandoned_book s b p rsn sd2 ad).2 b2
         = trackerHas s b2 ∧
       completedHas (update_abandoned_book s b p rsn sd2 ad).2 b2
         = completedHas s b2 ∧
       abandonedHas (update_abandoned_book s b p rsn sd2 ad).2 b2
         = abandonedHas s b2)) := by
  refine ⟨⟨rfl, ?_, ?_⟩, ⟨rfl, ?_, ?_⟩⟩
  · intro c hc hcb
    rcases List.mem_map.mp hc with ⟨a, _, rfl⟩
    by_cases h : (a.book_id == b) = true
    · have hb2 : a.book_id = b := by simpa using h
      simp only [if_pos h]
      rw [hb2]
    · simp only [if_neg h] at hcb ⊢
      exact absurd hcb (by simpa using h)
  · intro b2
    refine ⟨rfl, ?_, rfl⟩
    exact any_map_of_pred (fun c : CompletedRec => c.book_id == b2)
      (fun c => if c.book_id == b then
        { c with rating := r, review := v, start_date := sd,
                 completion_date := cd } else c)
      (fun c => congrArg (· == b2) (book_id_update_completed b r v sd cd c))
      s.completed_books
  · intro a ha hab
    rcases List.mem_map.mp ha with ⟨x, _, rfl⟩
    by_cases h : (x.book_id == b) = true
    · have hb2 : x.book_id = b := by simpa using h
      simp only [if_pos h]
      rw [hb2]
    · simp only [if_neg h] at hab ⊢
      exact absurd hab (by simpa using h)
  · intro b2
    refine ⟨rfl, rfl, ?_⟩
    exact any_map_of_pred (fun a : AbandonedRec => a.book_id == b2)
      (fun a => if a.book_id == b then
        { a with page_at_abandonment := p, reason := rsn, start_date := sd2,
                 abandonment_date := ad } else a)
      (fun a => congrArg (· == b2) (book_id_update_abandoned b p rsn sd2 ad a))
      s.abandoned_books

/-- Witness for C9 at a concrete store: updating an existing completed
record succeeds and overwrites its fields with nulls. -/
theorem update_status_fields_spec_witness :
    (update_completed_book ⟨[5], [], [⟨5, some 4, some "x", some "a", some "b"⟩],
        [], []⟩ 5 none none none none).1
      = completedHas ⟨[5], [], [⟨5, some 4, some "x", some "a", some "b"⟩],
        [], []⟩ 5 ∧
    ((⟨5, none, none, none, none⟩ : CompletedRec)
        ∈ (update_completed_book ⟨[5], [], [⟨5, some 4, some "x", some "a",
            some "b"⟩], [], []⟩ 5 none none none none).2.completed_books →
      (5 : Nat) = 5 →
      (⟨5, none, none, none, none⟩ : CompletedRec) = ⟨5, none, none, none, none⟩) :=
  ⟨(update_status_fields_spec ⟨[5], [], [⟨5, some 4, some "x", some "a",
      some "b"⟩], [], []⟩ 5 none none none none none none none none).1.1,
   (update_status_fields_spec ⟨[5], [], [⟨5, some 4, some "x", some "a",
      some "b"⟩], [], []⟩ 5 none none none none none none none none).1.2.1
     ⟨5, none, none, none, none⟩⟩

/-! ## C10: complete/abandon on an id missing from the catalog -/

/-- C10: for a book id not in the catalog, complete_book and abandon_book
still return success and insert a status record referencing the missing id,
while get_book_status keeps returning "unknown". -/
theorem permissive_nonexistent_spec (s : DB) (b : Nat) (r : Option Int)
    (v sd : Option String) (now : String) (p : Int) (rsn sd2 : Option String)
    (now2 : String) (hb : ¬ b ∈ s.books) :
    (complete_book s b r v sd now).1 = true ∧
    completedHas (complete_book s b r v sd now).2 b = true ∧
    get_book_status (complete_book s b r v sd now).2 b = "unknown" ∧
    (abandon_book s b p rsn sd2 now2).1 = true ∧
    abandonedHas (abandon_book s b p rsn sd2 now2).2 b = true ∧
    get_book_status (abandon_book s b p rsn sd2 now2).2 b = "unknown" := by
  have hc : s.books.contains b = false := by
    rw [← Bool.not_eq_true, List.elem_iff]
    exact hb
  refine ⟨rfl, ?_, ?_, rfl, ?_, ?_⟩
  · simp [completedHas, complete_book, any_append_single]
  · simp [get_book_status, complete_book, hc, hb]
  · simp [abandonedHas, abandon_book, any_append_single]
  · simp [get_book_status, abandon_book, hc, hb]

/-- Witness for C10 with id 9 absent from a one-book catalog. -/
theorem permissive_nonexistent_spec_witness :
    (complete_book ⟨[5], [], [], [], []⟩ 9 none none none "n").1 = true ∧
    get_book_status (complete_book ⟨[5], [], [], [], []⟩ 9 none none none "n").2 9
      = "unknown" :=
  ⟨(permissive_nonexistent_spec ⟨[5], [], [], [], []⟩ 9 none none none "n"
      3 none none "m" (by decide)).1,
   (permissive_nonexistent_spec ⟨[5], [], [], [], []⟩ 9 none none none "n"
      3 none none "m" (by decide)).2.2.1⟩

/-! ## C4: complete_book -/

/-- C4: complete_book always succeeds; it deletes the book's tracker and
abandoned rows and appends a completed record whose start_date, when the
argument is omitted, is inherited from the tracker row's start timestamp
(null when there was none); immediately afterwards the catalog book's
status is "completed" and no tracking record remains. -/
theorem complete_book_spec (s : DB) (b : Nat) (r : Option Int)
    (v : Option String) (sd : Option String) (now : String)
    (hb : b ∈ s.books) :
    (complete_book s b r v sd now).1 = true ∧
    get_book_status (complete_book s b r v sd now).2 b = "completed" ∧
    trackerHas (complete_book s b r v sd now).2 b = false ∧
    (complete_book s b r v sd now).2.reading_tracker
      = s.reading_tracker.filter (fun x => x.book_id != b) ∧
    (complete_book s b r v sd now).2.abandoned_books
      = s.abandoned_books.filter (fun x => x.book_id != b) ∧
    (∀ t, sd = none →
      s.reading_tracker.find? (fun x => x.book_id == b) = some t →
      (complete_book s b r v sd now).2.completed_books
        = s.completed_books ++ [⟨b, r, v, some t.start_date, some now⟩]) ∧
    (sd = none → s.reading_tracker.find? (fun x => x.book_id == b) = none →
      (complete_book s b r v sd now).2.completed_books
        = s.completed_books ++ [⟨b, r, v, none, some now⟩]) := by
  have htr : trackerHas (complete_book s b r v sd now).2 b = false := by
    show ((s.reading_tracker.filter fun x => x.book_id != b).any
      fun x => x.book_id == b) = false
    exact any_beq_filter_bne (fun x : TrackingRec => x.book_id) b s.reading_tracker
  have hcm : completedHas (complete_book s b r v sd now).2 b = true := by
    simp [completedHas, complete_book, any_append_single]
  refine ⟨rfl, ?_, htr, rfl, rfl, ?_, ?_⟩
  · have hbooks : (complete_book s b r v sd now).2.books = s.books := rfl
    unfold get_book_status
    rw [hbooks]
    simp [List.elem_iff.mpr hb, htr, hcm, hb]
  · intro t hsd hfind
    subst hsd
    simp [complete_book, pyFalsy, hfind]
  · intro hsd hfind
    subst hsd
    simp [complete_book, pyFalsy, hfind]

/-- Witness for C4: completing tracked book 5 inherits its start date and
leaves it in status completed. -/
theorem complete_book_spec_witness :
    get_book_status (complete_book ⟨[5], [⟨5, 30, "t0"⟩], [], [], []⟩
      5 (some 4) none none "t1").2 5 = "completed" ∧
    (complete_book ⟨[5], [⟨5, 30, "t0"⟩], [], [], []⟩
        5 (some 4) none none "t1").2.completed_books
      = [⟨5, some 4, none, some "t0", some "t1"⟩] :=
  ⟨(complete_book_spec ⟨[5], [⟨5, 30, "t0"⟩], [], [], []⟩ 5 (some 4) none none
      "t1" (by decide)).2.1,
   (complete_book_spec ⟨[5], [⟨5, 30, "t0"⟩], [], [], []⟩ 5 (some 4) none none
      "t1" (by decide)).2.2.2.2.2.1 ⟨5, 30, "t0"⟩ rfl (by decide)⟩

/-! ## C1: mutual exclusivity of the three status tables -/

/-- Key occurrence through a delete, as one conditional equation. -/
theorem any_filter_ite {α : Type} (f : α → Nat) (b bq : Nat) (xs : List α) :
    (xs.filter (fun x => f x != bq)).any (fun x => f x == b)
      = (if b = bq then false else xs.any (fun x => f x == b)) := by
  by_cases h : b = bq
  · rw [if_pos h, h]
    exact any_beq_filter_bne f bq xs
  · rw [if_neg h, any_beq_filter_bne_ne f b bq h xs]

/-- add_to_tracker keeps the per-book status-table count at most one. -/
theorem statusCount_track_le (s : DB) (b bq : Nat) (cp : Int) (now : String)
    (h : statusCount s b ≤ 1) :
    statusCount (add_to_tracker s bq cp now).2 b ≤ 1 := by
  unfold add_to_tracker
  by_cases hq : s.reading_tracker.any (fun r => r.book_id == bq) = true
  · simpa [hq] using h
  · simp only [Bool.not_eq_true] at hq
    unfold statusCount trackerHas completedHas abandonedHas at h ⊢
    simp only [hq, Bool.false_eq_true, if_false]
    rw [any_append_single,
        any_filter_ite (fun c : CompletedRec => c.book_id) b bq,
        any_filter_ite (fun a : AbandonedRec => a.book_id) b bq]
    by_cases hb : b = bq
    · subst hb
      simp
    · have hbq : (bq == b) = false := by
        simp [Ne.symm hb]
      simp only [hbq, Bool.or_false, if_neg hb]
      exact h

/-- complete_book keeps the per-book status-table count at most one. -/
theorem statusCount_complete_le (s : DB) (b bq : Nat) (r : Option Int)
    (v sd : Option String) (now : String) (h : statusCount s b ≤ 1) :
    statusCount (complete_book s bq r v sd now).2 b ≤ 1 := by
  unfold statusCount trackerHas completedHas abandonedHas at h ⊢
  unfold complete_book
  rw [any_append_single,
      any_filter_ite (fun x : TrackingRec => x.book_id) b bq,
      any_filter_ite (fun a : AbandonedRec => a.book_id) b bq]
  by_cases hb : b = bq
  · subst hb
    simp
  · have hbq : (bq == b) = false := by
      simp [Ne.symm hb]
    simp only [hbq, Bool.or_false, if_neg hb]
    exact h

/-- abandon_book keeps the per-book status-table count at most one. -/
theorem statusCount_abandon_le (s : DB) (b bq : Nat) (p : Int)
    (rsn sd : Option String) (now : String) (h : statusCount s b ≤ 1) :
    statusCount (abandon_book s bq p rsn sd now).2 b ≤ 1 := by
  unfold statusCount trackerHas completedHas abandonedHas at h ⊢
  unfold abandon_book
  rw [any_append_single,
      any_filter_ite (fun x : TrackingRec => x.book_id) b bq,
      any_filter_ite (fun c : CompletedRec => c.book_id) b bq]
  by_cases hb : b = bq
  · subst hb
    simp
  · have hbq : (bq == b) = false := by
      simp [Ne.symm hb]
    simp only [hbq, Bool.or_false, if_neg hb]
    exact h

/-- update_tracker_progress does not change the per-book status-table
count. -/
theorem statusCount_progress_eq (s : DB) (b bq : Nat) (cp : Int) :
    statusCount (update_tracker_progress s bq cp).2 b = statusCount s b := by
  unfold statusCount trackerHas completedHas abandonedHas update_tracker_progress
  rw [any_map_of_pred (fun x : TrackingRec => x.book_id == b)
    (fun x => if x.book_id == bq then { x with current_page := cp } else x)
    (fun x => by
      show ((if x.book_id == bq then
        ({ x with current_page := cp } : TrackingRec) else x).book_id == b)
          = (x.book_id == b)
      split <;> rfl) s.reading_tracker]

/-- remove_from_tracker keeps the per-book status-table count at most
one. -/
theorem statusCount_untrack_le (s : DB) (b bq : Nat)
    (h : statusCount s b ≤ 1) :
    statusCount (remove_from_tracker s bq).2 b ≤ 1 := by
  have hrw : statusCount (remove_from_tracker s bq).2 b
      = (if ((s.reading_tracker.filter fun x => x.book_id != bq).any
            fun x => x.book_id == b) = true then 1 else 0)
        + (if (s.completed_books.any fun x => x.book_id == b) = true then 1 else 0)
        + (if (s.abandoned_books.any fun x => x.book_id == b) = true then 1 else 0) := rfl
  unfold statusCount trackerHas completedHas abandonedHas at h
  rw [hrw, any_filter_ite (fun x : TrackingRec => x.book_id) b bq]
  by_cases hb : b = bq
  · rw [if_pos hb]
    simp only [Bool.false_eq_true, if_false]
    omega
  · rw [if_neg hb]
    exact h

/-- remove_from_completed keeps the per-book status-table count at most
one. -/
theorem statusCount_uncomplete_le (s : DB) (b bq : Nat)
    (h : statusCount s b ≤ 1) :
    statusCount (remove_from_completed s bq).2 b ≤ 1 := by
  have hrw : statusCount (remove_from_completed s bq).2 b
      = (if (s.reading_tracker.any fun x => x.book_id == b) = true then 1 else 0)
        + (if ((s.completed_books.filter fun x => x.book_id != bq).any
            fun x => x.book_id == b) = true then 1 else 0)
        + (if (s.abandoned_books.any fun x => x.book_id == b) = true then 1 else 0) := rfl
  unfold statusCount trackerHas completedHas abandonedHas at h
  rw [hrw, any_filter_ite (fun x : CompletedRec => x.book_id) b bq]
  by_cases hb : b = bq
  · rw [if_pos hb]
    simp only [Bool.false_eq_true, if_false]
    omega
  · rw [if_neg hb]
    exact h

/-- remove_from_abandoned keeps the per-book status-table count at most
one. -/
theorem statusCount_unabandon_le (s : DB) (b bq : Nat)
    (h : statusCount s b ≤ 1) :
    statusCount (remove_from_abandoned s bq).2 b ≤ 1 := by
  have hrw : statusCount (remove_from_abandoned s bq).2 b
      = (if (s.reading_tracker.any fun x => x.book_id == b) = true then 1 else 0)
        + (if (s.completed_books.any fun x => x.book_id == b) = true then 1 else 0)
        + (if ((s.abandoned_books.filter fun x => x.book_id != bq).any
            fun x => x.book_id == b) = true then 1 else 0) := rfl
  unfold statusCount trackerHas completedHas abandonedHas at h
  rw [hrw, any_filter_ite (fun x : AbandonedRec => x.book_id) b bq]
  by_cases hb : b = bq
  · rw [if_pos hb]
    simp only [Bool.false_eq_true, if_false]
    omega
  · rw [if_neg hb]
    exact h

/-- Every single ledger call preserves "at most one status table contains
the book". -/
theorem statusCount_applyOp_le (s : DB) (b : Nat) (op : LedgerOp)
    (h : statusCount s b ≤ 1) : statusCount (applyOp s op) b ≤ 1 := by
  cases op with
  | track bq cp now => exact statusCount_track_le s b bq cp now h
  | complete bq r v sd now => exact statusCount_complete_le s b bq r v sd now h
  | abandon bq p rsn sd now => exact statusCount_abandon_le s b bq p rsn sd now h
  | progress bq cp => rw [show applyOp s (.progress bq cp)
      = (update_tracker_progress s bq cp).2 from rfl, statusCount_progress_eq]; exact h
  | untrack bq => exact statusCount_untrack_le s b bq h
  | uncomplete bq => exact statusCount_uncomplete_le s b bq h
  | unabandon bq => exact statusCount_unabandon_le s b bq h

/-- C1: starting from a store where a book has no status record, any
sequence of the seven transition calls leaves at most one of the three
status tables containing that book. -/
theorem status_exclusivity (s : DB) (b : Nat) (ops : List LedgerOp)
    (h : statusCount s b = 0) : statusCount (applyOps s ops) b ≤ 1 := by
  have h1 : statusCount s b ≤ 1 := by omega
  clear h
  induction ops generalizing s with
  | nil => simpa [applyOps] using h1
  | cons op rest ih =>
      show statusCount (applyOps (applyOp s op) rest) b ≤ 1
      exact ih (applyOp s op) (statusCount_applyOp_le s b op h1)

/-- Witness for C1 on a concrete store and a concrete call sequence that
visits every operation. -/
theorem status_exclusivity_witness :
    statusCount (applyOps ⟨[5], [], [], [], []⟩
      [.track 5 0 "a", .progress 5 12, .complete 5 (some 4) none none "b",
       .track 5 3 "c", .abandon 5 40 none none "d", .unabandon 5,
       .track 5 0 "e", .untrack 5, .uncomplete 5]) 5 ≤ 1 :=
  status_exclusivity ⟨[5], [], [], [], []⟩ 5
    [.track 5 0 "a", .progress 5 12, .complete 5 (some 4) none none "b",
     .track 5 3 "c", .abandon 5 40 none none "d", .unabandon 5,
     .track 5 0 "e", .untrack 5, .uncomplete 5] (by decide)

/-! ## C5: single-list membership on re-add -/

/-- Adding a book to an existing list prunes its memberships on other lists
and appends one membership on the target list. -/
theorem add_book_memberships (st : TbrState) (b l : Nat) (h : l ∈ st.lists) :
    ∃ p : Int, (add_book_to_tbr_list st b l).2.memberships
      = st.memberships.filter (fun m => !(m.book_id == b && m.list_id != l))
        ++ [⟨b, l, p⟩] := by
  have hc : st.lists.contains l = true := List.elem_eq_true_of_mem h
  refine ⟨((st.memberships.filter
      (fun m => !(m.book_id == b && m.list_id != l))).filter
      (fun m => m.list_id == l)).foldl (fun acc m => max acc m.position) 0 + 1, ?_⟩
  unfold add_book_to_tbr_list
  rw [if_pos hc]

/-- After adding a book to an existing list, every membership of that book
is on that list. -/
theorem book_rows_after_add (st : TbrState) (b l : Nat) (h : l ∈ st.lists) :
    ∀ m ∈ (add_book_to_tbr_list st b l).2.memberships, m.book_id = b →
      m.list_id = l := by
  obtain ⟨p, hp⟩ := add_book_memberships st b l h
  rw [hp]
  intro m hm hmb
  rcases List.mem_append.mp hm with hmem | hmem
  · have hq := (List.mem_filter.mp hmem).2
    simp [hmb] at hq
    exact hq
  · rw [List.mem_singleton.mp hmem]

/-- add_book_to_tbr_list on an existing list preserves the set of lists. -/
theorem add_book_lists (st : TbrState) (b l : Nat) (h : l ∈ st.lists) :
    (add_book_to_tbr_list st b l).2.lists = st.lists := by
  have hc : st.lists.contains l = true := List.elem_eq_true_of_mem h
  unfold add_book_to_tbr_list
  rw [if_pos hc]

/-- C5: adding a book to list l1 and then to a different list l2 leaves the
book's current list at l2 and the book absent from l1's membership
sequence. -/
theorem add_book_round_trip (st : TbrState) (b l1 l2 : Nat) (h12 : l1 ≠ l2)
    (h1 : l1 ∈ st.lists) (h2 : l2 ∈ st.lists) :
    get_book_tbr_list
      (add_book_to_tbr_list (add_book_to_tbr_list st b l1).2 b l2).2 b
      = some l2 ∧
    ¬ b ∈ get_books_in_tbr_list
      (add_book_to_tbr_list (add_book_to_tbr_list st b l1).2 b l2).2 l1 := by
  have h2a : l2 ∈ (add_book_to_tbr_list st b l1).2.lists := by
    rw [add_book_lists st b l1 h1]
    exact h2
  have hrows := book_rows_after_add (add_book_to_tbr_list st b l1).2 b l2 h2a
  obtain ⟨p2, hm2⟩ := add_book_memberships (add_book_to_tbr_list st b l1).2 b l2 h2a
  constructor
  · unfold get_book_tbr_list
    rcases hfind : ((add_book_to_tbr_list (add_book_to_tbr_list st b l1).2
        b l2).2.memberships.find? (fun m => m.book_id == b)) with _ | m
    · exfalso
      have hr2 : (⟨b, l2, p2⟩ : TbrMem)
          ∈ (add_book_to_tbr_list (add_book_to_tbr_list st b l1).2 b l2).2.memberships := by
        rw [hm2]
        exact List.mem_append.mpr (Or.inr (List.mem_singleton.mpr rfl))
      have := List.find?_eq_none.mp hfind _ hr2
      simp at this
    · have hpm : m.book_id = b := by
        simpa using List.find?_some hfind
      have hmm := List.mem_of_find?_eq_some hfind
      rw [hfind]
      have hml : m.list_id = l2 := hrows m hmm hpm
      simp [hml]
  · intro hb
    unfold get_books_in_tbr_list at hb
    rcases List.mem_map.mp hb with ⟨m, hm, hmb⟩
    have hmem := List.mem_mergeSort.mp hm
    have hfl := List.mem_filter.mp hmem
    have hml1 : m.list_id = l1 := by
      simpa using hfl.2
    have hml2 : m.list_id = l2 := hrows m hfl.1 hmb
    exact h12 (hml1 ▸ hml2)

/-- Witness for C5: book 101 moved from list 1 to list 2 on a concrete
state. -/
theorem add_book_round_trip_witness :
    get_book_tbr_list
      (add_book_to_tbr_list (add_book_to_tbr_list ⟨[1, 2], []⟩ 101 1).2 101 2).2 101
      = some 2 ∧
    ¬ (101 : Nat) ∈ get_books_in_tbr_list
      (add_book_to_tbr_list (add_book_to_tbr_list ⟨[1, 2], []⟩ 101 1).2 101 2).2 1 :=
  add_book_round_trip ⟨[1, 2], []⟩ 101 1 2 (by decide) (by decide) (by decide)

/-! ## C6: adjacent-swap reordering -/

/-- swapFn never changes a row's book. -/
theorem swapFn_book_id (l b1 : Nat) (p1 : Int) (b2 : Nat) (p2 : Int)
    (x : TbrMem) : (swapFn l b1 p1 b2 p2 x).book_id = x.book_id := by
  unfold swapFn
  split
  · rfl
  · split <;> rfl

/-- swapFn never changes a row's list. -/
theorem swapFn_list_id (l b1 : Nat) (p1 : Int) (b2 : Nat) (p2 : Int)
    (x : TbrMem) : (swapFn l b1 p1 b2 p2 x).list_id = x.list_id := by
  unfold swapFn
  split
  · rfl
  · split <;> rfl

/-- find? commutes with a map whose function preserves the predicate. -/
theorem find?_map_pres {α : Type} (p : α → Bool) (f : α → α)
    (hf : ∀ x, p (f x) = p x) (ms : List α) :
    List.find? p (ms.map f) = Option.map f (List.find? p ms) := by
  rw [List.find?_map]
  have hpf : (p ∘ f) = p := funext hf
  rw [hpf]

/-- A result of bestBelow is a member of `l` with position strictly below
`p`. -/
theorem bestBelow_some_mem (l : Nat) (p : Int) :
    ∀ (ms : List TbrMem) (x : TbrMem), bestBelow l p ms = some x →
      x ∈ ms ∧ x.list_id = l ∧ x.position < p := by
  intro ms
  induction ms with
  | nil =>
    intro x h
    simp [bestBelow] at h
  | cons m ms ih =>
    intro x h
    simp only [bestBelow] at h
    by_cases hcond : (m.list_id == l && decide (m.position < p)) = true
    · rw [if_pos hcond] at h
      have hcond2 : m.list_id = l ∧ m.position < p := by
        simpa using hcond
      have hml : m.list_id = l := hcond2.1
      have hmp : m.position < p := hcond2.2
      rcases hrest : bestBelow l p ms with _ | a
      · simp only [hrest] at h
        simp only [Option.some.injEq] at h
        subst h
        exact ⟨List.mem_cons_self _ _, hml, hmp⟩
      · simp only [hrest] at h
        by_cases hlt : a.position < m.position
        · rw [if_pos hlt] at h
          simp only [Option.some.injEq] at h
          subst h
          exact ⟨List.mem_cons_self _ _, hml, hmp⟩
        · rw [if_neg hlt] at h
          simp only [Option.some.injEq] at h
          subst h
          obtain ⟨hxm, hxl, hxp⟩ := ih a hrest
          exact ⟨List.mem_cons_of_mem _ hxm, hxl, hxp⟩
    · rw [if_neg hcond] at h
      obtain ⟨hxm, hxl, hxp⟩ := ih x h
      exact ⟨List.mem_cons_of_mem _ hxm, hxl, hxp⟩

/-- bestBelow finds something whenever a candidate exists. -/
theorem bestBelow_isSome (l : Nat) (p : Int) :
    ∀ (ms : List TbrMem) (a : TbrMem), a ∈ ms → a.list_id = l →
      a.position < p → (bestBelow l p ms).isSome = true := by
  intro ms
  induction ms with
  | nil =>
    intro a ha
    simp at ha
  | cons m ms ih =>
    intro a ha hal hap
    simp only [bestBelow]
    by_cases hcond : (m.list_id == l && decide (m.position < p)) = true
    · rw [if_pos hcond]
      rcases hrest : bestBelow l p ms with _ | x
      · simp only [hrest]
        rfl
      · simp only [hrest]
        split <;> rfl
    · rw [if_neg hcond]
      rcases List.mem_cons.mp ha with rfl | hmem
      · exact absurd (by simp [hal, hap]) hcond
      · exact ih a hmem hal hap

/-- A result of bestAbove is a member of `l` with position strictly above
`p`. -/
theorem bestAbove_some_mem (l : Nat) (p : Int) :
    ∀ (ms : List TbrMem) (x : TbrMem), bestAbove l p ms = some x →
      x ∈ ms ∧ x.list_id = l ∧ p < x.position := by
  intro ms
  induction ms with
  | nil =>
    intro x h
    simp [bestAbove] at h
  | cons m ms ih =>
    intro x h
    simp only [bestAbove] at h
    by_cases hcond : (m.list_id == l && decide (p < m.position)) = true
    · rw [if_pos hcond] at h
      have hcond2 : m.list_id = l ∧ p < m.position := by
        simpa using hcond
      have hml : m.list_id = l := hcond2.1
      have hmp : p < m.position := hcond2.2
      rcases hrest : bestAbove l p ms with _ | a
      · simp only [hrest] at h
        simp only [Option.some.injEq] at h
        subst h
        exact ⟨List.mem_cons_self _ _, hml, hmp⟩
      · simp only [hrest] at h
        by_cases hlt : m.position < a.position
        · rw [if_pos hlt] at h
          simp only [Option.some.injEq] at h
          subst h
          exact ⟨List.mem_cons_self _ _, hml, hmp⟩
        · rw [if_neg hlt] at h
          simp only [Option.some.injEq] at h
          subst h
          obtain ⟨hxm, hxl, hxp⟩ := ih a hrest
          exact ⟨List.mem_cons_of_mem _ hxm, hxl, hxp⟩
    · rw [if_neg hcond] at h
      obtain ⟨hxm, hxl, hxp⟩ := ih x h
      exact ⟨List.mem_cons_of_mem _ hxm, hxl, hxp⟩

/-- bestAbove finds something whenever a candidate exists. -/
theorem bestAbove_isSome (l : Nat) (p : Int) :
    ∀ (ms : List TbrMem) (a : TbrMem), a ∈ ms → a.list_id = l →
      p < a.position → (bestAbove l p ms).isSome = true := by
  intro ms
  induction ms with
  | nil =>
    intro a ha
    simp at ha
  | cons m ms ih =>
    intro a ha hal hap
    simp only [bestAbove]
    by_cases hcond : (m.list_id == l && decide (p < m.position)) = true
    · rw [if_pos hcond]
      rcases hrest : bestAbove l p ms with _ | x
      · simp only [hrest]
        rfl
      · simp only [hrest]
        split <;> rfl
    · rw [if_neg hcond]
      rcases List.mem_cons.mp ha with rfl | hmem
      · exact absurd (by simp [hal, hap]) hcond
      · exact ih a hmem hal hap

/-- bestAbove returns a candidate of minimal position. -/
theorem bestAbove_min (l : Nat) (p : Int) :
    ∀ (ms : List TbrMem) (x : TbrMem), bestAbove l p ms = some x →
      ∀ m2 ∈ ms, m2.list_id = l → p < m2.position →
        x.position ≤ m2.position := by
  intro ms
  induction ms with
  | nil =>
    intro x h
    simp [bestAbove] at h
  | cons m ms ih =>
    intro x h m2 hm2 hm2l hm2p
    simp only [bestAbove] at h
    by_cases hcond : (m.list_id == l && decide (p < m.position)) = true
    · rw [if_pos hcond] at h
      rcases hrest : bestAbove l p ms with _ | a
      · simp only [hrest] at h
        simp only [Option.some.injEq] at h
        subst h
        rcases List.mem_cons.mp hm2 with rfl | hmem
        · exact le_refl _
        · exfalso
          have := bestAbove_isSome l p ms m2 hmem hm2l hm2p
          rw [hrest] at this
          simp at this
      · simp only [hrest] at h
        by_cases hlt : m.position < a.position
        · rw [if_pos hlt] at h
          simp only [Option.some.injEq] at h
          subst h
          rcases List.mem_cons.mp hm2 with rfl | hmem
          · exact le_refl _
          · exact le_of_lt (lt_of_lt_of_le hlt (ih a hrest m2 hmem hm2l hm2p))
        · rw [if_neg hlt] at h
          simp only [Option.some.injEq] at h
          subst h
          rcases List.mem_cons.mp hm2 with rfl | hmem
          · exact le_of_not_lt (fun hc => hlt hc)
          · exact ih a hrest m2 hmem hm2l hm2p
    · rw [if_neg hcond] at h
      rcases List.mem_cons.mp hm2 with rfl | hmem
      · exact absurd (by simp [hm2l, hm2p]) hcond
      · exact ih x h m2 hmem hm2l hm2p

/-- C6: on a well-formed list (books and positions unique within the list),
move_book_up on the first element fails and leaves the state unchanged, and
move_book_up on the second element followed by move_book_down on the
now-first element restores the original state; each move swaps the position
values of the target's membership and its adjacent neighbour. -/
theorem move_up_second_round_trip (st : TbrState) (b l : Nat) (mb : TbrMem)
    (ha : st.memberships.find? (fun m => m.book_id == b && m.list_id == l)
      = some mb)
    (hbooks : ∀ m ∈ st.memberships, ∀ m2 ∈ st.memberships, m.list_id = l →
      m2.list_id = l → m.book_id = m2.book_id → m = m2)
    (hpos : ∀ m ∈ st.memberships, ∀ m2 ∈ st.memberships, m.list_id = l →
      m2.list_id = l → m.position = m2.position → m = m2) :
    ((∀ m ∈ st.memberships, m.list_id = l → ¬ m.position < mb.position) →
      move_book_up st b l = (false, st)) ∧
    (∀ ma, ma ∈ st.memberships → ma.list_id = l →
      ma.position < mb.position →
      (∀ m ∈ st.memberships, m.list_id = l → m.position < mb.position →
        m = ma) →
      (move_book_up st b l).1 = true ∧
      (move_book_down (move_book_up st b l).2 b l).1 = true ∧
      (move_book_down (move_book_up st b l).2 b l).2 = st) := by
  have hmb_mem : mb ∈ st.memberships := List.mem_of_find?_eq_some ha
  have hmbc : mb.book_id = b ∧ mb.list_id = l := by
    simpa using List.find?_some ha
  constructor
  · intro hfirst
    rcases hbb : bestBelow l mb.position st.memberships with _ | x
    · simp only [move_book_up, ha, hbb]
    · exfalso
      obtain ⟨hxm, hxl, hxp⟩ := bestBelow_some_mem l mb.position st.memberships x hbb
      exact hfirst x hxm hxl hxp
  · intro ma hma hmal hmalt huniq
    have hmab : ma.book_id ≠ b := by
      intro hx
      have hmaeq : ma = mb := hbooks ma hma mb hmb_mem hmal hmbc.2
        (by rw [hx, hmbc.1])
      rw [hmaeq] at hmalt
      exact lt_irrefl _ hmalt
    have hbbma : bestBelow l mb.position st.memberships = some ma := by
      rcases hbb : bestBelow l mb.position st.memberships with _ | x
      · exfalso
        have hs := bestBelow_isSome l mb.position st.memberships ma hma hmal hmalt
        rw [hbb] at hs
        simp at hs
      · obtain ⟨hxm, hxl, hxp⟩ := bestBelow_some_mem l mb.position st.memberships x hbb
        rw [huniq x hxm hxl hxp]
    have hup : move_book_up st b l = (true, { st with memberships := swapPositions st.memberships l b ma.position ma.book_id mb.position }) := by
      simp only [move_book_up, ha, hbbma]
    have hst1 : (move_book_up st b l).2.memberships
        = st.memberships.map (swapFn l b ma.position ma.book_id mb.position) := by
      rw [hup]
      rfl
    have hfmb : swapFn l b ma.position ma.book_id mb.position mb
        = { mb with position := ma.position } := by
      unfold swapFn
      rw [if_pos (by simp [hmbc.1, hmbc.2])]
    have hfma : swapFn l b ma.position ma.book_id mb.position ma
        = { ma with position := mb.position } := by
      unfold swapFn
      rw [if_neg (by simp [hmab]), if_pos (by simp [hmal])]
    have hq : ∀ x : TbrMem,
        ((swapFn l b ma.position ma.book_id mb.position x).book_id == b
          && (swapFn l b ma.position ma.book_id mb.position x).list_id == l)
        = (x.book_id == b && x.list_id == l) := by
      intro x
      rw [swapFn_book_id, swapFn_list_id]
    have hfind1 : (move_book_up st b l).2.memberships.find?
        (fun m => m.book_id == b && m.list_id == l)
        = some { mb with position := ma.position } := by
      rw [hst1, find?_map_pres _ _ hq st.memberships, ha]
      simp [hfmb]
    have hfma_mem : ({ ma with position := mb.position } : TbrMem)
        ∈ (move_book_up st b l).2.memberships := by
      rw [hst1, ← hfma]
      exact List.mem_map_of_mem _ hma
    have hba : bestAbove l ma.position (move_book_up st b l).2.memberships
        = some { ma with position := mb.position } := by
      rcases hb0 : bestAbove l ma.position (move_book_up st b l).2.memberships
        with _ | y
      · exfalso
        have hs := bestAbove_isSome l ma.position
          (move_book_up st b l).2.memberships
          { ma with position := mb.position } hfma_mem hmal hmalt
        rw [hb0] at hs
        simp at hs
      · obtain ⟨hym, hyl, hyp⟩ := bestAbove_some_mem l ma.position _ y hb0
        have hymin := bestAbove_min l ma.position _ y hb0
          { ma with position := mb.position } hfma_mem hmal hmalt
        rw [hst1] at hym
        obtain ⟨z, hz, hzy⟩ := List.mem_map.mp hym
        by_cases hzl : z.list_id = l
        · by_cases hzb : z.book_id = b
          · have hzmb : z = mb := hbooks z hz mb hmb_mem hzl hmbc.2
              (by rw [hzb, hmbc.1])
            exfalso
            have hypos : y.position = ma.position := by
              rw [← hzy, hzmb, hfmb]
            rw [hypos] at hyp
            exact lt_irrefl _ hyp
          · by_cases hzma : z.book_id = ma.book_id
            · have hzma2 : z = ma := hbooks z hz ma hma hzl hmal hzma
              rw [← hzy, hzma2, hfma]
            · have hfz : swapFn l b ma.position ma.book_id mb.position z = z := by
                unfold swapFn
                rw [if_neg (by simp [hzb]), if_neg (by simp [hzma])]
              have hyz : y = z := by rw [← hzy, hfz]
              exfalso
              have hz_not_lt : ¬ z.position < mb.position := by
                intro hlt2
                have hzma3 := huniq z hz hzl hlt2
                exact hzma (by rw [hzma3])
              have hz_ne_pb : z.position ≠ mb.position := by
                intro heq2
                have hzmb2 := hpos z hz mb hmb_mem hzl hmbc.2 heq2
                exact hzb (by rw [hzmb2, hmbc.1])
              have hgt : mb.position < z.position :=
                lt_of_le_of_ne (le_of_not_lt hz_not_lt) (Ne.symm hz_ne_pb)
              rw [hyz] at hymin
              exact absurd hymin (not_le_of_lt hgt)
        · exfalso
          have hzl2 : z.list_id = l := by
            rw [← swapFn_list_id l b ma.position ma.book_id mb.position z,
              hzy, hyl]
          exact hzl hzl2
    refine ⟨by rw [hup], ?_, ?_⟩
    · simp only [move_book_down, hfind1, hba]
    · have hdown : move_book_down (move_book_up st b l).2 b l = (true, { (move_book_up st b l).2 with memberships := swapPositions (move_book_up st b l).2.memberships l b ({ ma with position := mb.position } : TbrMem).position ({ ma with position := mb.position } : TbrMem).book_id ({ mb with position := ma.position } : TbrMem).position }) := by
        simp only [move_book_down, hfind1, hba]
      rw [hdown]
      show ({ (move_book_up st b l).2 with memberships := swapPositions (move_book_up st b l).2.memberships l b mb.position ma.book_id ma.position } : TbrState) = st
      have hcomp : swapPositions (move_book_up st b l).2.memberships l b
          mb.position ma.book_id ma.position = st.memberships := by
        rw [hst1]
        unfold swapPositions
        rw [List.map_map]
        have hptw : ∀ x ∈ st.memberships,
            (swapFn l b mb.position ma.book_id ma.position ∘
              swapFn l b ma.position ma.book_id mb.position) x = id x := by
          intro x hx
          simp only [Function.comp_apply, id_eq]
          by_cases hxl : x.list_id = l
          · by_cases hxb : x.book_id = b
            · have hxmb : x = mb := hbooks x hx mb hmb_mem hxl hmbc.2
                (by rw [hxb, hmbc.1])
              subst hxmb
              rw [hfmb]
              unfold swapFn
              rw [if_pos (by simp [hmbc.1, hmbc.2])]
            · by_cases hxma : x.book_id = ma.book_id
              · have hxma2 : x = ma := hbooks x hx ma hma hxl hmal hxma
                subst hxma2
                rw [hfma]
                unfold swapFn
                rw [if_neg (by simp [hmab]), if_pos (by simp [hmal])]
              · have hfz : swapFn l b ma.position ma.book_id mb.position x = x := by
                  unfold swapFn
                  rw [if_neg (by simp [hxb]), if_neg (by simp [hxma])]
                have hgz : swapFn l b mb.position ma.book_id ma.position x = x := by
                  unfold swapFn
                  rw [if_neg (by simp [hxb]), if_neg (by simp [hxma])]
                rw [hfz, hgz]
          · have hfz : swapFn l b ma.position ma.book_id mb.position x = x := by
              unfold swapFn
              rw [if_neg (by simp [hxl]), if_neg (by simp [hxl])]
            have hgz : swapFn l b mb.position ma.book_id ma.position x = x := by
              unfold swapFn
              rw [if_neg (by simp [hxl]), if_neg (by simp [hxl])]
            rw [hfz, hgz]
        rw [List.map_congr_left hptw, List.map_id]
      rw [hcomp, hup]

/-- Witness for C6 on the concrete list [101, 102, 103] (positions
1, 2, 3): moving 101 up fails and changes nothing; moving 102 up and then
down restores the original state. -/
theorem move_up_second_round_trip_witness :
    move_book_up ⟨[1], [⟨101, 1, 1⟩, ⟨102, 1, 2⟩, ⟨103, 1, 3⟩]⟩ 101 1
      = (false, ⟨[1], [⟨101, 1, 1⟩, ⟨102, 1, 2⟩, ⟨103, 1, 3⟩]⟩) ∧
    (move_book_up ⟨[1], [⟨101, 1, 1⟩, ⟨102, 1, 2⟩, ⟨103, 1, 3⟩]⟩ 102 1).1
      = true ∧
    (move_book_down
      (move_book_up ⟨[1], [⟨101, 1, 1⟩, ⟨102, 1, 2⟩, ⟨103, 1, 3⟩]⟩ 102 1).2
      102 1).1 = true ∧
    (move_book_down
      (move_book_up ⟨[1], [⟨101, 1, 1⟩, ⟨102, 1, 2⟩, ⟨103, 1, 3⟩]⟩ 102 1).2
      102 1).2 = ⟨[1], [⟨101, 1, 1⟩, ⟨102, 1, 2⟩, ⟨103, 1, 3⟩]⟩ := by
  have h1 := (move_up_second_round_trip
    ⟨[1], [⟨101, 1, 1⟩, ⟨102, 1, 2⟩, ⟨103, 1, 3⟩]⟩ 101 1 ⟨101, 1, 1⟩
    (by decide) (by decide) (by decide)).1 (by decide)
  have h2 := (move_up_second_round_trip
    ⟨[1], [⟨101, 1, 1⟩, ⟨102, 1, 2⟩, ⟨103, 1, 3⟩]⟩ 102 1 ⟨102, 1, 2⟩
    (by decide) (by decide) (by decide)).2 ⟨101, 1, 1⟩
    (by decide) (by decide) (by decide) (by decide)
  exact ⟨h1, h2.1, h2.2.1, h2.2.2⟩
